import Mathlib

/-!
Shallow embedding of the command-orchestration layer of the gprs-sim900
driver (src/index.js).  The Postmaster and the Packetizer are external
collaborators of this layer; their behaviour is abstracted as an
environment that supplies, for each transmit call the orchestrator makes,
the (error, frames) pair the Postmaster would hand to the callback.
All definitions are translated from src/index.js; line numbers in the
doc comments refer to that file.
-/

namespace GprsSim900

/-- Errors delivered to callbacks.  The Postmaster tags timeout errors
with a type the orchestrator inspects (err.type === "timeout" on line 81);
every other error is a plain Error value carrying a message. -/
inductive JsErr where
  | timeout
  | error (msg : String)
  deriving DecidableEq

/-- Result the Postmaster delivers to a transmit callback: an optional
error plus the frames collected for this exchange. -/
structure TxResult where
  err : Option JsErr
  data : List String
  deriving DecidableEq

/-- One-character string holding the NUL control byte: the stray byte the
SIM900 sometimes prepends to a frame at power-on, written "\x00" in the
source. -/
def x00 : String := String.mk [Char.ofNat 0]

/-- Character-list prefix test used to model data.indexOf(key) === 0 and
String.prototype.indexOf-at-zero checks: JavaScript strings are compared
character by character. -/
def prefixChars : List Char → List Char → Bool
  | [], _ => true
  | _ :: _, [] => false
  | p :: ps, c :: cs => decide (p = c) && prefixChars ps cs

/-- s begins with pre, character by character. -/
def strStartsWith (s pre : String) : Bool := prefixChars pre.data s.data

/-- String.prototype.slice(n) for a nonnegative n: drop the first n
characters. -/
def strDrop (s : String) (n : Nat) : String := String.mk (s.data.drop n)

/-- JavaScript a || b on numbers, where 0 is falsy (used by _txrx on its
patience argument with default 250, line 125). -/
def jsOrInt (p d : Int) : Int := if p = 0 then d else p

/-- Patience actually used by _txrx before it delegates to
postmaster.send: patience = patience || 250 (line 125) followed by
patience = Math.max(patience, 100) (line 135).  Lines 122-137. -/
def txrxPatience (patience : Int) : Int := max (jsOrInt patience 250) 100

/-- How the callback of _establishContact was invoked. -/
inductive ContactOutcome where
  | failed (msg : String)
  | ready (data : List String)
  | errOther (e : JsErr)
  deriving DecidableEq

/-- Observable result of one _establishContact invocation tree: how many
togglePower power cycles ran, and how the callback given by the caller
was invoked. -/
structure ContactResult where
  toggles : Nat
  outcome : ContactOutcome
  deriving DecidableEq

/-- Failure message built when the retry ceiling is exceeded (line 77). -/
def contactFailMsg (reps : Nat) : String :=
  "Failed to connect to module because it could not be powered on and contacted after "
    ++ toString reps ++ " attempt(s)"

/-- Recursion core of _establishContact (lines 76-96).  The source guard
rep > reps is encoded structurally: gas = reps + 1 - rep, so gas = 0
exactly when rep > reps, and each recursive step passes rep + 1, hence
gas - 1.  Each probe is the AT transmit of line 80; a timeout-typed error
runs one togglePower cycle and retries (lines 81-86); a clean reply
invokes the callback with the data (lines 87-91); any other error invokes
the callback with that error (lines 92-94). -/
def contactLoop (probe : Nat → TxResult) (reps : Nat) : Nat → Nat → ContactResult
  | 0, _ => ⟨0, .failed (contactFailMsg reps)⟩
  | gas + 1, rep =>
    match (probe rep).err with
    | some .timeout =>
      let sub := contactLoop probe reps gas (rep + 1)
      ⟨sub.toggles + 1, sub.outcome⟩
    | none => ⟨0, .ready (probe rep).data⟩
    | some e => ⟨0, .errOther e⟩

/-- _establishContact (lines 51-97): applies the source defaults
rep = rep || 0 (the identity on Nat) and reps = reps || 5, then runs the
retry loop. -/
def establishContact (probe : Nat → TxResult) (rep reps : Nat) : ContactResult :=
  let reps := if reps = 0 then 5 else reps
  contactLoop probe reps (reps + 1 - rep) rep

/-- Environment in which every AT probe fails with a timeout-kind error:
the module is never contacted. -/
def allTimeoutProbe : Nat → TxResult := fun _ => ⟨some JsErr.timeout, []⟩

/-- Field-level check used by the intermediate validator of chain,
line 191: [data[i], "\\x00" + data[i], "\x00" + data[i]].indexOf(replies[0][i]) > -1,
which is membership of the expected token e in the list of three variants
built from the received frame d. -/
def matchTok (d e : String) : Bool :=
  (e == d) || (e == "\\x00" ++ d) || (e == x00 ++ d)

/-- The validator loop for (i = 0; i < data.length; i++) of lines 189-192:
one matchTok conjunct per received frame, paired positionally with the
expected reply; when i is past the end of the expected reply the source
reads replies[0][i] as undefined, which is never a member of the variant
list. -/
def validFields : List String → List String → Bool
  | _, [] => true
  | [], _ :: _ => false
  | e :: es, d :: ds => matchTok d e && validFields es ds

/-- Second callback argument used by chain: either the frames array or
the literal false that the source passes on failure. -/
inductive ChainData where
  | frames (d : List String)
  | falseVal
  deriving DecidableEq

/-- How one chain invocation resolved. -/
inductive ChainOutcome where
  | callbackCalled (err : Option JsErr) (data : ChainData)
  | crashed (msg : String)
  | noCallback
  | stalled
  deriving DecidableEq

/-- Trace of one chain run: the resolution, the commands actually passed
to _txrx in order, how many postmaster.forceClear calls happened, and the
environment responses not yet consumed. -/
structure ChainResult where
  outcome : ChainOutcome
  transmitted : List String
  forceClears : Nat
  remaining : List TxResult
  deriving DecidableEq

/-- Exception raised while the source evaluates
replies[0][replies[0].length - 1] (line 199) with a null replies[0]:
this happens during evaluation of the arguments of _txrx, before the
message of that step is ever written. -/
def nullReplyCrash : String :=
  "TypeError: Cannot read properties of null (reading length)"

/-- chain (lines 164-214).  Argument order follows the source:
messages, patiences, replies, then the environment of Postmaster
responses consumed one per _txrx call.  Lines 183-184 check the array
lengths; line 199 transmits the head message (crashing first on a null
replies[0], see nullReplyCrash); a final step passes the raw result to
the callback (func = callback when messages.length === 1, line 198);
an intermediate step validates with validFields and either recurses on
the tails (line 203) or force-clears the Postmaster and reports the
chain-broke error naming the breaking message (lines 205-208).  When the
environment has no response for a transmitted step the run is stalled
(the Postmaster has not called back yet). -/
def chain : List String → List Int → List (Option (List String)) → List TxResult → ChainResult
  | msgs, ps, rs, resp =>
    if msgs.length ≠ ps.length ∨ msgs.length ≠ rs.length then
      ⟨.callbackCalled (some (.error "array lengths must match")) .falseVal, [], 0, resp⟩
    else
      match msgs, ps, rs with
      | [], _, _ => ⟨.noCallback, [], 0, resp⟩
      | m :: ms, _ :: ps1, rep0 :: rs1 =>
        match rep0 with
        | none => ⟨.crashed nullReplyCrash, [], 0, resp⟩
        | some expected =>
          match resp with
          | [] => ⟨.stalled, [m], 0, []⟩
          | r :: rest =>
            if ms.isEmpty = true then
              ⟨.callbackCalled r.err (.frames r.data), [m], 0, rest⟩
            else if r.err = none ∧ validFields expected r.data = true then
              let sub := chain ms ps1 rs1 rest
              ⟨sub.outcome, m :: sub.transmitted, sub.forceClears, sub.remaining⟩
            else
              ⟨.callbackCalled (some (.error ("chain broke on " ++ m))) .falseVal, [m], 1, rest⟩
      | _ :: _, [], _ => ⟨.noCallback, [], 0, resp⟩
      | _ :: _, _ :: _, [] => ⟨.noCallback, [], 0, resp⟩

/-- State touched by dial: the inACall flag of the GPRS instance, the
property the callback actually writes (its receiver is not the instance,
because the continuation is invoked as a plain function, unlike the
siblings answerCall and hangUp which capture the instance in a local
variable self), and the log of commands written to the transport. -/
structure DialState where
  inACall : Bool
  globalInACall : Option Bool
  transmitted : List String
  deriving DecidableEq

/-- dial (lines 217-244): reject while already in a call (line 232),
reject a falsy or shorter-than-10-digit number (line 234), otherwise set
the instance flag, write the ATD command, and - when the exchange
resolves - run the callback body, whose assignment this.inACall = false
(line 240) lands on the plain-call receiver, modeled as globalInACall,
not on the instance flag. -/
def dial (number : String) (s : DialState) (resp : TxResult) :
    DialState × Option JsErr × List String :=
  if s.inACall = true then
    (s, some (.error "Currently in a call"), [])
  else if number = "" ∨ number.length < 10 then
    (s, some (.error "Number must be at least 10 digits"), [])
  else
    let s1 : DialState :=
      { s with inACall := true,
               transmitted := s.transmitted ++ ["ATD" ++ number ++ ";"] }
    let s2 : DialState := { s1 with globalInACall := some false }
    (s2, resp.err, resp.data)

/-- Value stored under a key of notificationCallbacks: a header handler
function (identified by a numeric tag) or the array of wildcard handlers
kept under the reserved key "_everyTime". -/
inductive Entry where
  | handlerFn (id : Nat)
  | everyTimeList (ws : List Nat)
  deriving DecidableEq

/-- One handler invocation performed by the unsolicited listener. -/
inductive Call where
  | header (key : String) (id : Nat)
  | wildcard (id : Nat)
  deriving DecidableEq

/-- Pass of lines 280-284 over Object.keys(notificationCallbacks): invoke
the entry of every key that prefixes a truthy frame (data &&
data.indexOf(key) === 0).  Hitting the wildcard array here throws,
because an array is not callable, and the throw aborts the listener.
The result holds the calls made before any throw, plus the crash when one
occurred. -/
def headerPass : List (String × Entry) → String → List Call × Option String
  | [], _ => ([], none)
  | (key, e) :: rest, data =>
    if data ≠ "" ∧ strStartsWith data key = true then
      match e with
      | .handlerFn id =>
        let t := headerPass rest data
        (.header key id :: t.fst, t.snd)
      | .everyTimeList _ => ([], some "TypeError: handler is not a function")
    else headerPass rest data

/-- Property lookup on the notificationCallbacks object. -/
def lookupKey : List (String × Entry) → String → Option Entry
  | [], _ => none
  | (k, e) :: rest, key => if k = key then some e else lookupKey rest key

/-- Body of the listener that notify installs on the unsolicited channel
of the Postmaster (lines 268-290): the keyed pass over every property,
then - when nothing threw - one call per function in the wildcard array
stored under "_everyTime" (lines 286-288). -/
def notifyDispatch (entries : List (String × Entry)) (data : String) :
    List Call × Option String :=
  match headerPass entries data with
  | (calls, some m) => (calls, some m)
  | (calls, none) =>
    match lookupKey entries "_everyTime" with
    | some (.everyTimeList ws) => (calls ++ ws.map Call.wildcard, none)
    | _ => (calls, some "TypeError: undefined is not a function")

/-- notificationCallbacks plus the number of postmaster.on subscriptions
to the unsolicited channel that notify() has installed so far. -/
structure NotifState where
  entries : List (String × Entry)
  subscribeCount : Nat
  deriving DecidableEq

/-- Constructor state (line 33): the object holding only the reserved
wildcard array, and no subscription installed yet. -/
def initNotifState : NotifState := ⟨[("_everyTime", Entry.everyTimeList [])], 0⟩

/-- Property write notificationCallbacks[newKey] = pairs[newKey]
(line 314): overwrites in place or appends a fresh key. -/
def insertPair : List (String × Entry) → String → Entry → List (String × Entry)
  | [], k, e => [(k, e)]
  | (k0, e0) :: rest, k, e =>
    if k0 = k then (k0, e) :: rest else (k0, e0) :: insertPair rest k e

/-- notificationCallbacks._everyTime.push(f) for each wildcard function
(line 319). -/
def pushWildcards (entries : List (String × Entry)) (ws : List Nat) :
    List (String × Entry) :=
  entries.map fun ke =>
    if ke.fst = "_everyTime" then
      match ke.snd with
      | .everyTimeList l => (ke.fst, Entry.everyTimeList (l ++ ws))
      | e => (ke.fst, e)
    else ke

/-- notifyOn (lines 293-322): call notify(), which adds one listener on
the unsolicited channel, whenever Object.keys(...).length < 2 (line 308),
then install the header pairs and append the wildcard handlers. -/
def notifyOn (pairs : List (String × Nat)) (everyTime : Option (List Nat))
    (s : NotifState) : NotifState :=
  let count := if s.entries.length < 2 then s.subscribeCount + 1 else s.subscribeCount
  let entries1 := pairs.foldl
    (fun acc kv => insertPair acc kv.fst (Entry.handlerFn kv.snd)) s.entries
  let entries2 := match everyTime with
    | some ws => pushWildcards entries1 ws
    | none => entries1
  ⟨entries2, count⟩

/-- Decimal digit test on a character code. -/
def charIsDigit (c : Char) : Bool := decide (48 ≤ c.toNat) && decide (c.toNat ≤ 57)

/-- Whitespace test on a character code (space, tab, newline family). -/
def charIsSpace (c : Char) : Bool :=
  decide (c.toNat = 32) || (decide (9 ≤ c.toNat) && decide (c.toNat ≤ 13))

/-- JavaScript parseInt(s, 10): skip leading whitespace, take an optional
sign and then the longest run of digits; none models NaN. -/
def parseIntJs (s : String) : Option Int :=
  let cs := s.data.dropWhile charIsSpace
  let signed : Bool × List Char :=
    match cs with
    | '-' :: r => (true, r)
    | '+' :: r => (false, r)
    | r => (false, r)
  let digits := signed.snd.takeWhile charIsDigit
  if digits.isEmpty then none
  else
    let n : Nat := digits.foldl (fun acc c => acc * 10 + (c.toNat - 48)) 0
    some (if signed.fst then -(n : Int) else (n : Int))

/-- How sendSMS resolved: the final callback invocation (error plus the
array holding the identifier, where none models the null passed for a
missing number), a thrown exception, or still waiting on the
environment. -/
inductive SmsOutcome where
  | called (err : Option JsErr) (ids : Option (List (Option Int)))
  | crashed (msg : String)
  | pending
  deriving DecidableEq

/-- sendSMS (lines 352-399): reject a falsy number (line 369); otherwise
run the three-step chain of lines 374-377, and in its callback check the
final result manually (line 380); on success transmit the terminating
control byte 0x1a and inspect the confirmation frames (lines 384-393):
a first frame prefixed by "+CMGS: " and a second frame "OK" yield the
parsed identifier with a null error (the inner callback parameter err
shadows the outer err variable, so a mismatch reports the error of the
final exchange, which may be null, with identifier -1); when the chain
result is not as expected the callback receives the chain error, or an
Unable-to-send error when the chain reported none, with identifier -1. -/
def sendSMS (number message0 : String) (resp : List TxResult) : SmsOutcome :=
  if number = "" then
    .called (some (.error "Did not specify a 10+ digit number")) none
  else
    let message := if message0 = "" then "text from a Tessel" else message0
    let openCmd := "AT+CMGS=" ++ "\"" ++ number ++ "\""
    let cres := chain ["AT+CMGF=1", openCmd, message]
      [2000, 5000, 5000]
      [some ["AT+CMGF=1", "OK"], some [openCmd, "> "], some [message, "> "]]
      resp
    match cres.outcome with
    | .crashed m => .crashed m
    | .stalled => .pending
    | .noCallback => .pending
    | .callbackCalled errr dataV =>
      let dataOk : Bool :=
        match dataV with
        | .frames d => decide (d[0]? = some message) && decide (d[1]? = some "> ")
        | .falseVal => false
      if errr = none ∧ dataOk = true then
        match cres.remaining with
        | [] => .pending
        | r :: _ =>
          match r.data[0]? with
          | none => .crashed "TypeError: Cannot read properties of undefined (reading indexOf)"
          | some d0 =>
            if strStartsWith d0 "+CMGS: " = true ∧ r.data[1]? = some "OK" then
              .called none (some [parseIntJs (strDrop d0 7)])
            else
              .called r.err (some [some (-1)])
      else
        .called (some (match errr with
          | some e => e
          | none => JsErr.error "Unable to send SMS")) (some [some (-1)])

/-- Environment for the round-trip scenario: the transport echoes the
mode-set command with OK, echoes the recipient open with a prompt, echoes
the body with a prompt, and after the terminating control byte returns
the confirmation frame followed by OK. -/
def smsHappyEnv : List TxResult :=
  [⟨none, ["AT+CMGF=1", "OK"]⟩,
   ⟨none, ["AT+CMGS=\"1234567890\"", "> "]⟩,
   ⟨none, ["hi", "> "]⟩,
   ⟨none, ["+CMGS: 7", "OK"]⟩]

/-- Idle instance for the dial scenario. -/
def initDialState : DialState := ⟨false, none, []⟩

/-- Registry with one wildcard handler and one header handler, as built
by notifyOn. -/
def exEntries : List (String × Entry) :=
  [("_everyTime", Entry.everyTimeList [7]), ("+CMT", Entry.handlerFn 3)]

/-- Helper: under an environment where every probe times out, the retry
loop spends all its gas, toggling the power once per level, and ends in
the ceiling failure. -/
theorem contactLoop_allTimeout (probe : Nat → TxResult) (reps : Nat)
    (h : ∀ n, (probe n).err = some JsErr.timeout) :
    ∀ gas rep, contactLoop probe reps gas rep = ⟨gas, .failed (contactFailMsg reps)⟩ := by
  intro gas
  induction gas with
  | zero => intro rep; rfl
  | succ g ih =>
    intro rep
    simp only [contactLoop, h, ih]

/-- Claim C1, counterexample: with the default ceiling of 5 and every
probe timing out, establishContact performs 6 power-cycle attempts, not
the 5 the claim states. -/
theorem establishContact_counterexample_C1 :
    (establishContact allTimeoutProbe 0 5).toggles = 6 ∧
    (establishContact allTimeoutProbe 0 5).toggles ≠ 5 := by
  decide

/-- Claim C1 (amended): with the default attempt ceiling of 5 and every
probe failing with a timeout-kind error, establishContact performs
exactly 6 power-cycle attempts (the guard is rep > reps, so timed-out
probes run for rep = 0 through 5, each followed by one power cycle) and
then invokes the callback of the caller once with the ContactFailed-kind
error citing the ceiling; the recursion ends there, so no further
automatic retries occur. -/
theorem establishContact_allTimeout_C1 (probe : Nat → TxResult)
    (h : ∀ n, (probe n).err = some JsErr.timeout) :
    establishContact probe 0 5 = ⟨6, .failed (contactFailMsg 5)⟩ := by
  show contactLoop probe 5 6 0 = _
  rw [contactLoop_allTimeout probe 5 h 6 0]

/-- Witness for the amended C1 theorem at the all-timeout environment. -/
theorem establishContact_allTimeout_C1_witness :
    establishContact allTimeoutProbe 0 5 = ⟨6, .failed (contactFailMsg 5)⟩ :=
  establishContact_allTimeout_C1 allTimeoutProbe (fun _ => rfl)

/-- Claim C4, counterexample: a patience of 0 is below the floor of 100,
yet the patience used is the default 250, not the floor. -/
theorem txrxPatience_counterexample_C4 :
    txrxPatience 0 = 250 ∧ (0 : Int) < 100 ∧ txrxPatience 0 ≠ 100 := by
  decide

/-- Claim C4 (amended): the patience used by _txrx is never below the
floor of 100, and every nonzero patience below the floor is silently
raised exactly to the floor before delegation to the Postmaster; a
patience of 0 is falsy in the source and is replaced by the default 250
rather than by the floor. -/
theorem txrxPatience_floor_C4 (p : Int) :
    100 ≤ txrxPatience p ∧ (p ≠ 0 → p < 100 → txrxPatience p = 100) := by
  unfold txrxPatience jsOrInt
  refine ⟨le_max_right _ _, ?_⟩
  intro hne hlt
  rw [if_neg hne, max_eq_right hlt.le]

/-- Witness for the amended C4 theorem at patience 50. -/
theorem txrxPatience_floor_C4_witness : txrxPatience 50 = 100 :=
  (txrxPatience_floor_C4 50).2 (by decide) (by decide)

/-- Claim C3: the chain validator applies the stray-leading-byte variants
to the wrong side.  A received frame equal to the expected token with a
NUL byte prepended is rejected by validFields, while the reverse - a
received frame equal to the expected token with its leading NUL byte
stripped - is accepted. -/
theorem validFields_strayByte_C3 :
    validFields ["AT"] [x00 ++ "AT"] = false ∧
    validFields [x00 ++ "AT"] ["AT"] = true := by
  decide

/-- Claim C8: a chain step whose expected-reply entry is null crashes
while the source builds the alternate argument for _txrx (it reads the
length of null), before the message of the step is written; the step is
never treated as any-non-error, and no callback runs. -/
theorem chain_nullReply_C8 :
    chain ["AT+CMGF=1", "NEXT"] [100, 100] [none, some ["NEXT", "OK"]]
      [⟨none, ["AT+CMGF=1", "OK"]⟩] =
      ⟨.crashed nullReplyCrash, [], 0, [⟨none, ["AT+CMGF=1", "OK"]⟩]⟩ := by
  decide

/-- Claim C9: after a dial that transmits and whose exchange resolves
cleanly, the inACall flag of the instance is still true - the clearing
assignment in the callback lands on the plain-call receiver, not on the
instance - even though the flag was set and the command was written. -/
theorem dial_flag_C9 :
    (dial "1234567890" initDialState ⟨none, ["ATD1234567890;", "OK"]⟩).fst.inACall = true ∧
    (dial "1234567890" initDialState ⟨none, ["ATD1234567890;", "OK"]⟩).fst.globalInACall
      = some false ∧
    (dial "1234567890" initDialState ⟨none, ["ATD1234567890;", "OK"]⟩).fst.transmitted
      = ["ATD1234567890;"] := by
  decide

/-- Claim C7: two successive notifyOn calls that register only wildcard
handlers each pass the first-registration test, because the key count of
the callbacks object stays at 1, so the second call subscribes the
orchestrator to the unsolicited channel again: after the first call one
subscription exists, after the second call two exist. -/
theorem notifyOn_resubscribe_C7 :
    (notifyOn [] (some [0]) initNotifState).subscribeCount = 1 ∧
    (notifyOn [] (some [1]) (notifyOn [] (some [0]) initNotifState)).subscribeCount = 2 := by
  decide

/-- Claim C5: sendSMS on the number 1234567890 and body hi, against a
transport that echoes the mode-set command with OK, echoes the recipient
open with a prompt, echoes the body with a prompt, and after the
terminating control byte returns the frame +CMGS: 7 followed by OK,
invokes its callback with identifier 7 and no error. -/
theorem sendSMS_roundtrip_C5 :
    sendSMS "1234567890" "hi" smsHappyEnv = .called none (some [some 7]) := by
  decide

/-- Claim C6, counterexample: an unsolicited frame beginning with the
reserved key makes the listener invoke the wildcard array itself as a
handler, which throws; the registered wildcard handler is never invoked
for that frame. -/
theorem notifyDispatch_counterexample_C6 :
    (notifyDispatch exEntries "_everyTime ring").fst = [] ∧
    (notifyDispatch exEntries "_everyTime ring").snd
      = some "TypeError: handler is not a function" := by
  decide

/-- Helper: a received sequence that is pointwise accepted by matchTok and
no longer than the expected reply passes the validator loop. -/
theorem validFields_of_pointwise :
    ∀ (l data : List String), data.length ≤ l.length →
      (∀ i (h : i < data.length), ∃ e, l[i]? = some e ∧
        matchTok (data.get ⟨i, h⟩) e = true) →
      validFields l data = true := by
  intro l data
  induction data generalizing l with
  | nil =>
    intro _ _
    cases l with
    | nil => rfl
    | cons e es => rfl
  | cons d ds ih =>
    intro hlen hpt
    cases l with
    | nil => simp at hlen
    | cons e es =>
      have h1 : matchTok d e = true := by
        obtain ⟨e0, he0, hm⟩ := hpt 0 (by simp)
        simp only [List.getElem?_cons_zero, Option.some.injEq] at he0
        subst he0
        exact hm
      have h2 : validFields es ds = true := by
        apply ih
        · simpa using hlen
        · intro i hi
          obtain ⟨e1, he1, hm1⟩ := hpt (i + 1) (by simpa using hi)
          refine ⟨e1, ?_, ?_⟩
          · simpa using he1
          · exact hm1
      simp [validFields, h1, h2]

/-- Claim C10: an intermediate chain step with a non-null expected reply
whose exchange resolves without error and returns fewer frames than
expected, each received frame matching its positional expectation, passes
validation, and the chain advances: the run equals the run of the
remaining steps with the command of this step recorded as transmitted and
its response consumed. -/
theorem chain_shortReply_C10 (m1 : String) (ms : List String) (p1 : Int)
    (ps : List Int) (l : List String) (rs : List (Option (List String)))
    (r : TxResult) (rest : List TxResult)
    (hlen1 : (m1 :: ms).length = (p1 :: ps).length)
    (hlen2 : (m1 :: ms).length = (some l :: rs).length)
    (hms : ms ≠ [])
    (herr : r.err = none)
    (hshort : r.data.length < l.length)
    (hpt : ∀ i (h : i < r.data.length), ∃ e, l[i]? = some e ∧
      matchTok (r.data.get ⟨i, h⟩) e = true) :
    validFields l r.data = true ∧
    chain (m1 :: ms) (p1 :: ps) (some l :: rs) (r :: rest) =
      ⟨(chain ms ps rs rest).outcome, m1 :: (chain ms ps rs rest).transmitted,
        (chain ms ps rs rest).forceClears, (chain ms ps rs rest).remaining⟩ := by
  have hvf := validFields_of_pointwise l r.data hshort.le hpt
  refine ⟨hvf, ?_⟩
  cases ms with
  | nil => exact absurd rfl hms
  | cons m2 ms2 =>
    have hLen : ¬((m1 :: m2 :: ms2).length ≠ (p1 :: ps).length ∨
        (m1 :: m2 :: ms2).length ≠ (some l :: rs).length) :=
      not_or.mpr ⟨fun h => h hlen1, fun h => h hlen2⟩
    have hEmpty : ¬((m2 :: ms2).isEmpty = true) := by simp
    have hCor : r.err = none ∧ validFields l r.data = true := ⟨herr, hvf⟩
    simp only [chain]
    rw [if_neg hLen, if_neg hEmpty, if_pos hCor]

/-- Witness for C10 on a concrete two-step chain: the first step expects
two frames but receives only the matching first one; validation passes
and the second command is transmitted (the run then stalls awaiting the
environment). -/
theorem chain_shortReply_C10_witness :
    validFields ["AT", "OK"] ["AT"] = true ∧
    chain ["A", "B"] [1, 1] [some ["AT", "OK"], some ["B", "OK"]]
      [⟨none, ["AT"]⟩] =
      ⟨ChainOutcome.stalled, ["A", "B"], 0, []⟩ := by
  have h := chain_shortReply_C10 "A" ["B"] 1 [1] ["AT", "OK"] [some ["B", "OK"]]
    ⟨none, ["AT"]⟩ [] rfl rfl (by simp) rfl (by decide)
    (by
      intro i hi
      have hi1 : i < 1 := hi
      have hi0 : i = 0 := Nat.lt_one_iff.mp hi1
      subst hi0
      refine ⟨"AT", rfl, ?_⟩
      show matchTok "AT" "AT" = true
      decide)
  exact ⟨h.1, h.2.trans (by decide)⟩

/-- Claim C2: in a chain whose steps before index k validate and whose
step k (an intermediate step) resolves without error but with a reply
rejected by the validator, the run aborts at step k: the callback fires
once with the chain-broke error naming the message of step k, exactly the
first k + 1 commands were handed to _txrx - so the command of step k + 1
is never transmitted - postmaster.forceClear runs exactly once, and the
responses after step k are left unconsumed. -/
theorem chain_break_C2 :
    ∀ (k : Nat) (msgs : List String) (ps : List Int)
      (rs : List (Option (List String))) (resp : List TxResult),
      msgs.length = ps.length →
      msgs.length = rs.length →
      k + 1 < msgs.length →
      (∀ i, i < k → ∃ l r, rs[i]? = some (some l) ∧ resp[i]? = some r ∧
        r.err = none ∧ validFields l r.data = true) →
      (∃ l r, rs[k]? = some (some l) ∧ resp[k]? = some r ∧
        r.err = none ∧ validFields l r.data = false) →
      chain msgs ps rs resp =
        ⟨.callbackCalled (some (.error ("chain broke on " ++ msgs[k]?.getD "")))
          .falseVal, msgs.take (k + 1), 1, resp.drop (k + 1)⟩ := by
  intro k
  induction k with
  | zero =>
    intro msgs ps rs resp hlen1 hlen2 hk hpre hbrk
    obtain ⟨l, r, hl, hr, herr, hvf⟩ := hbrk
    cases msgs with
    | nil => simp at hk
    | cons m ms =>
    cases ps with
    | nil => simp at hlen1
    | cons p ps1 =>
    cases rs with
    | nil => simp at hlen2
    | cons rep0 rs1 =>
    cases resp with
    | nil => simp at hr
    | cons r0 rest =>
    simp only [List.getElem?_cons_zero, Option.some.injEq] at hl hr
    subst rep0
    subst r0
    cases ms with
    | nil => simp at hk
    | cons m2 ms2 =>
    have hLen : ¬((m :: m2 :: ms2).length ≠ (p :: ps1).length ∨
        (m :: m2 :: ms2).length ≠ (some l :: rs1).length) :=
      not_or.mpr ⟨fun h => h hlen1, fun h => h hlen2⟩
    have hEmpty : ¬((m2 :: ms2).isEmpty = true) := by simp
    have hnCor : ¬(r.err = none ∧ validFields l r.data = true) := by
      rintro ⟨-, hvt⟩
      rw [hvf] at hvt
      exact Bool.noConfusion hvt
    simp only [chain]
    rw [if_neg hLen, if_neg hEmpty, if_neg hnCor]
    rfl
  | succ k ih =>
    intro msgs ps rs resp hlen1 hlen2 hk hpre hbrk
    cases msgs with
    | nil => simp at hk
    | cons m ms =>
    cases ps with
    | nil => simp at hlen1
    | cons p ps1 =>
    cases rs with
    | nil => simp at hlen2
    | cons rep0 rs1 =>
    obtain ⟨l0, r0, hl0, hr0, herr0, hvf0⟩ := hpre 0 (Nat.succ_pos k)
    cases resp with
    | nil => simp at hr0
    | cons rr rest =>
    simp only [List.getElem?_cons_zero, Option.some.injEq] at hl0 hr0
    subst rep0
    subst rr
    cases ms with
    | nil => simp at hk
    | cons m2 ms2 =>
    have hLen : ¬((m :: m2 :: ms2).length ≠ (p :: ps1).length ∨
        (m :: m2 :: ms2).length ≠ (some l0 :: rs1).length) :=
      not_or.mpr ⟨fun h => h hlen1, fun h => h hlen2⟩
    have hEmpty : ¬((m2 :: ms2).isEmpty = true) := by simp
    have hCor : r0.err = none ∧ validFields l0 r0.data = true := ⟨herr0, hvf0⟩
    simp only [chain]
    rw [if_neg hLen, if_neg hEmpty, if_pos hCor]
    have hsub := ih (m2 :: ms2) ps1 rs1 rest
      (by simpa using hlen1) (by simpa using hlen2) (by simpa using hk)
      (fun i hi => by
        obtain ⟨l1, r1, a, b, c, d⟩ := hpre (i + 1) (by omega)
        exact ⟨l1, r1, by simpa using a, by simpa using b, c, d⟩)
      (by
        obtain ⟨l1, r1, a, b, c, d⟩ := hbrk
        exact ⟨l1, r1, by simpa using a, by simpa using b, c, d⟩)
    rw [hsub]
    simp [List.take_succ_cons, List.getElem?_cons_succ, List.drop_succ_cons]

/-- Witness for C2 on a concrete three-step chain breaking at the second
step: the second reply ends with FAIL instead of OK, so the run reports
the chain-broke error for B, transmits only A and B, and force-clears the
Postmaster once. -/
theorem chain_break_C2_witness :
    chain ["A", "B", "C"] [1, 1, 1]
      [some ["A", "OK"], some ["B", "OK"], some ["C", "OK"]]
      [⟨none, ["A", "OK"]⟩, ⟨none, ["B", "FAIL"]⟩] =
      ⟨.callbackCalled (some (.error ("chain broke on " ++ "B"))) .falseVal,
        ["A", "B"], 1, []⟩ := by
  have h := chain_break_C2 1 ["A", "B", "C"] [1, 1, 1]
    [some ["A", "OK"], some ["B", "OK"], some ["C", "OK"]]
    [⟨none, ["A", "OK"]⟩, ⟨none, ["B", "FAIL"]⟩]
    rfl rfl (by simp)
    (fun i hi => by
      have hi0 : i = 0 := Nat.lt_one_iff.mp hi
      subst hi0
      exact ⟨["A", "OK"], ⟨none, ["A", "OK"]⟩, rfl, rfl, rfl, by decide⟩)
    ⟨["B", "OK"], ⟨none, ["B", "FAIL"]⟩, rfl, rfl, rfl, by decide⟩
  simpa using h

/-- Helper: when no key that prefixes the frame holds the wildcard array
(in particular whenever the frame does not begin with the reserved key
and the registry is shaped as notifyOn builds it), the keyed pass does
not throw. -/
theorem headerPass_none_of_wf (data : String)
    (hns : strStartsWith data "_everyTime" = false) :
    ∀ entries : List (String × Entry),
      (∀ k l, (k, Entry.everyTimeList l) ∈ entries → k = "_everyTime") →
      (headerPass entries data).snd = none := by
  intro entries
  induction entries with
  | nil => intro _; rfl
  | cons ke rest ih =>
    intro hwf
    obtain ⟨k, e⟩ := ke
    by_cases hg : data ≠ "" ∧ strStartsWith data k = true
    · cases e with
      | handlerFn id =>
        simp only [headerPass, if_pos hg]
        exact ih fun k1 l1 h1 => hwf k1 l1 (List.mem_cons_of_mem _ h1)
      | everyTimeList ws =>
        exfalso
        have hk : k = "_everyTime" := hwf k ws (List.mem_cons_self _ _)
        rw [hk] at hg
        rw [hns] at hg
        exact Bool.noConfusion hg.2
    · simp only [headerPass, if_neg hg]
      exact ih fun k1 l1 h1 => hwf k1 l1 (List.mem_cons_of_mem _ h1)

/-- Helper: a registered header handler whose key prefixes the truthy
frame is invoked by the keyed pass (no throw can precede it when the
frame does not begin with the reserved key). -/
theorem headerPass_mem_of (data key : String) (id : Nat)
    (hne : data ≠ "") (hsw : strStartsWith data key = true)
    (hns : strStartsWith data "_everyTime" = false) :
    ∀ entries : List (String × Entry),
      (∀ k l, (k, Entry.everyTimeList l) ∈ entries → k = "_everyTime") →
      (key, Entry.handlerFn id) ∈ entries →
      Call.header key id ∈ (headerPass entries data).fst := by
  intro entries
  induction entries with
  | nil => intro _ h; cases h
  | cons ke rest ih =>
    intro hwf hmem
    obtain ⟨k, e⟩ := ke
    rcases List.mem_cons.mp hmem with hhead | htail
    · rw [Prod.mk.injEq] at hhead
      obtain ⟨hk, he⟩ := hhead
      subst hk
      subst he
      have hg0 : data ≠ "" ∧ strStartsWith data key = true := ⟨hne, hsw⟩
      simp only [headerPass, if_pos hg0]
      exact List.mem_cons_self _ _
    · by_cases hg : data ≠ "" ∧ strStartsWith data k = true
      · cases e with
        | handlerFn id0 =>
          simp only [headerPass, if_pos hg]
          exact List.mem_cons_of_mem _
            (ih (fun k1 l1 h1 => hwf k1 l1 (List.mem_cons_of_mem _ h1)) htail)
        | everyTimeList ws =>
          exfalso
          have hk : k = "_everyTime" := hwf k ws (List.mem_cons_self _ _)
          rw [hk] at hg
          rw [hns] at hg
          exact Bool.noConfusion hg.2
      · simp only [headerPass, if_neg hg]
        exact ih (fun k1 l1 h1 => hwf k1 l1 (List.mem_cons_of_mem _ h1)) htail

/-- Helper: every call made by the keyed pass is a header call whose key
is registered as a handler function and prefixes the truthy frame. -/
theorem headerPass_sound (data : String) :
    ∀ (entries : List (String × Entry)) (c : Call),
      c ∈ (headerPass entries data).fst →
      ∃ key id, c = Call.header key id ∧ (key, Entry.handlerFn id) ∈ entries ∧
        data ≠ "" ∧ strStartsWith data key = true := by
  intro entries
  induction entries with
  | nil => intro c h; cases h
  | cons ke rest ih =>
    intro c hc
    obtain ⟨k, e⟩ := ke
    by_cases hg : data ≠ "" ∧ strStartsWith data k = true
    · cases e with
      | handlerFn id =>
        simp only [headerPass, if_pos hg] at hc
        rcases List.mem_cons.mp hc with h | h
        · exact ⟨k, id, h, List.mem_cons_self _ _, hg.1, hg.2⟩
        · obtain ⟨key, id1, hcall, hmem, h1, h2⟩ := ih c h
          exact ⟨key, id1, hcall, List.mem_cons_of_mem _ hmem, h1, h2⟩
      | everyTimeList ws =>
        simp only [headerPass, if_pos hg] at hc
        cases hc
    · simp only [headerPass, if_neg hg] at hc
      obtain ⟨key, id1, hcall, hmem, h1, h2⟩ := ih c hc
      exact ⟨key, id1, hcall, List.mem_cons_of_mem _ hmem, h1, h2⟩

/-- Claim C6 (amended): for every unsolicited frame that does not begin
with the reserved wildcard key, dispatch completes without throwing,
every registered wildcard handler is invoked with the frame, and a
registered header handler is invoked exactly when the frame is truthy and
its header token is a prefix of the frame; header matches do not suppress
wildcard dispatch.  (A frame beginning with the reserved key instead
makes the listener invoke the wildcard array itself, which throws and
suppresses all dispatch for that frame.) -/
theorem notifyDispatch_amended_C6 (entries : List (String × Entry))
    (data : String) (ws : List Nat)
    (hwf : ∀ k l, (k, Entry.everyTimeList l) ∈ entries → k = "_everyTime")
    (hlk : lookupKey entries "_everyTime" = some (Entry.everyTimeList ws))
    (hns : strStartsWith data "_everyTime" = false) :
    (notifyDispatch entries data).snd = none ∧
    (∀ w, w ∈ ws → Call.wildcard w ∈ (notifyDispatch entries data).fst) ∧
    (∀ key id, (key, Entry.handlerFn id) ∈ entries →
      (Call.header key id ∈ (notifyDispatch entries data).fst ↔
        (data ≠ "" ∧ strStartsWith data key = true))) := by
  have h1 := headerPass_none_of_wf data hns entries hwf
  have hp : headerPass entries data = ((headerPass entries data).fst, none) := by
    rw [← h1]
  have hnd : notifyDispatch entries data
      = ((headerPass entries data).fst ++ ws.map Call.wildcard, none) := by
    unfold notifyDispatch
    rw [hp]
    dsimp only
    rw [hlk]
  refine ⟨by rw [hnd], ?_, ?_⟩
  · intro w hw
    rw [hnd]
    exact List.mem_append_right _ (List.mem_map_of_mem _ hw)
  · intro key id hmem
    rw [hnd]
    constructor
    · intro hin
      rcases List.mem_append.mp hin with h | h
      · obtain ⟨key1, id1, hcall, _, ha, hb⟩ := headerPass_sound data entries _ h
        cases hcall
        exact ⟨ha, hb⟩
      · obtain ⟨w, _, hcw⟩ := List.mem_map.mp h
        cases hcw
    · intro hpre
      exact List.mem_append_left _
        (headerPass_mem_of data key id hpre.1 hpre.2 hns entries hwf hmem)

/-- Witness for the amended C6 theorem on a registry with one wildcard
handler and one header handler and a frame matched by the header: the
dispatch does not throw, the wildcard handler runs, and the header
handler runs. -/
theorem notifyDispatch_amended_C6_witness :
    (notifyDispatch exEntries "+CMT: hello").snd = none ∧
    Call.wildcard 7 ∈ (notifyDispatch exEntries "+CMT: hello").fst ∧
    Call.header "+CMT" 3 ∈ (notifyDispatch exEntries "+CMT: hello").fst := by
  have h := notifyDispatch_amended_C6 exEntries "+CMT: hello" [7]
    (by
      intro k l hmem
      simp only [exEntries, List.mem_cons, List.not_mem_nil, or_false,
        Prod.mk.injEq] at hmem
      rcases hmem with ⟨h1, _⟩ | ⟨_, h2⟩
      · exact h1
      · cases h2)
    rfl (by decide)
  exact ⟨h.1, h.2.1 7 (by simp), (h.2.2 "+CMT" 3 (by simp [exEntries])).mpr
    ⟨by decide, by decide⟩⟩

end GprsSim900
